import Mathlib

/-!
Verification development for the stock-screening repository
(`StockTrend.py`, `StockTrend2.py`, `StockTrend_Gemini.py`).

The numeric data of the sources (pandas float columns after comma-stripping
and `pd.to_numeric` coercion) is modelled by `ℚ`; series are modelled as
lists of per-day bar records, oldest first, and only clean (non-NaN) data is
modelled, matching the data each detector actually operates on after the
normalisation steps.  Each definition is a direct transcription of the named
source function; line numbers refer to the source files.
-/

/-- Last `n` elements of a list, i.e. pandas `DataFrame.tail(n)` /
numpy `xs[-n:]` slicing. -/
def lastN (n : Nat) (xs : List α) : List α := xs.drop (xs.length - n)

/-- Maximum of a list of rationals, i.e. python `max(...)` / `Series.max()`
(0 on the empty list, which the sources never hit). -/
def npMax : List ℚ → ℚ
  | [] => 0
  | x :: xs => xs.foldl max x

/-- Minimum of a list of rationals, i.e. `np.min` (0 on the empty list,
which the sources never hit). -/
def npMin : List ℚ → ℚ
  | [] => 0
  | x :: xs => xs.foldl min x

/-- Model of `np.argmin`: the index of the first occurrence of the minimum
value (numpy documents that ties return the first occurrence). -/
def npArgmin (xs : List ℚ) : Nat := xs.indexOf (npMin xs)

/-- Python `all(l[i] <= l[i+1] for i in range(len(l)-1))`: adjacent pairs
non-decreasing. -/
def nondec : List ℚ → Bool
  | x :: y :: rest => decide (x ≤ y) && nondec (y :: rest)
  | _ => true

/-- Python `all(l[i] < l[i+1] for i in range(len(l)-1))`: adjacent pairs
strictly increasing. -/
def strictInc : List ℚ → Bool
  | x :: y :: rest => decide (x < y) && strictInc (y :: rest)
  | _ => true

/-! ## StockTrend2.py — the signal-scoring classifier `analyze_volume_price_pattern` -/

/-- One daily bar of `StockTrend2.py` (columns 開盤價 / 最高價 / 最低價 /
收盤價 / 成交張數). -/
structure Bar where
  op : ℚ
  hi : ℚ
  lo : ℚ
  cl : ℚ
  vol : ℚ
deriving DecidableEq

instance : Inhabited Bar := ⟨⟨0, 0, 0, 0, 0⟩⟩

/-- Positional access into the 10-bar `recent` window (`recent.iloc[i]`);
`analyze_volume_price_pattern` only reaches its detectors when the window
has exactly 10 bars, so indices 0-9 are always in range. -/
def bAt (r : List Bar) (i : Nat) : Bar := r.getD i default

/-- StockTrend2.py lines 135-143: the latest volume strictly exceeds the
maximum of the previous 3 volumes (`recent.iloc[-4:-1]`). -/
def is_high_volume (r : List Bar) : Bool :=
  decide (npMax [(bAt r 6).vol, (bAt r 7).vol, (bAt r 8).vol] < (bAt r 9).vol)

/-- StockTrend2.py lines 131-152: which day of a volume spike today is.
The loop over `i in range(1, 3)` runs unconditionally (for a 10-bar window)
and overwrites the day-1 classification when an earlier bar also spiked. -/
def high_volume_day (r : List Bar) : Nat :=
  if npMax [(bAt r 5).vol, (bAt r 6).vol, (bAt r 7).vol] < (bAt r 8).vol then 2
  else if npMax [(bAt r 4).vol, (bAt r 5).vol, (bAt r 6).vol] < (bAt r 7).vol then 3
  else if is_high_volume r then 1 else 0

/-- StockTrend2.py lines 158-161: the support line is the body low of the
latest bar, and only exists on a high-volume day. -/
def support_price (r : List Bar) : Option ℚ :=
  if is_high_volume r then some (min (bAt r 9).op (bAt r 9).cl) else none

/-- StockTrend2.py line 164: the resistance line is the maximum high of the
10-bar window. -/
def resistance_price (r : List Bar) : ℚ := npMax (r.map Bar.hi)

/-- One score adjustment of the classifier: either an additive weight
(`action_score += n`) or a hard reset (`action_score = 0`). -/
inductive ScoreOp
  | add (n : ℤ)
  | reset
deriving DecidableEq

/-- The effect of one sub-detector: signals appended to `signals`, tags
appended to `risk_factors`, and the score adjustment. -/
structure Upd where
  sig : List String
  rsk : List String
  sop : ScoreOp
deriving DecidableEq

/-- A sub-detector that does not trigger. -/
def noUpd : Upd := ⟨[], [], .add 0⟩

/-- The running state of the classifier: `action_score`, `signals`,
`risk_factors`. -/
structure ClassifierState where
  score : ℤ
  sigs : List String
  risks : List String
deriving DecidableEq

/-- Apply one sub-detector effect to the running state. -/
def applyUpd (st : ClassifierState) (u : Upd) : ClassifierState :=
  { score := match u.sop with | .add n => st.score + n | .reset => 0,
    sigs := st.sigs ++ u.sig,
    risks := st.risks ++ u.rsk }

/-- Run a list of sub-detectors left to right from the initial state
(`action_score = 0`, empty `signals` / `risk_factors`). -/
def runRules (rs : List (List Bar → Upd)) (r : List Bar) : ClassifierState :=
  rs.foldl (fun st rule => applyUpd st (rule r)) ⟨0, [], []⟩

/-- Detector 1 (lines 139-143): informational high-volume-day-1 signal,
weight 0. -/
def volumeSpikeRule (r : List Bar) : Upd :=
  if is_high_volume r then ⟨["high_volume_day1_watch"], [], .add 0⟩ else noUpd

/-- Detector 2 (lines 167-175): position of the latest close relative to
the support line; below support records the hard risk factor
`broke_support` (破支撐). -/
def supportPositionRule (r : List Bar) : Upd :=
  match support_price r with
  | none => noUpd
  | some s =>
    if (bAt r 9).cl > s then ⟨["above_support"], [], .add 2⟩
    else if (bAt r 9).cl < s then ⟨["below_support"], ["broke_support"], .add (-5)⟩
    else noUpd

/-- Detector 3 (lines 179-195): three strictly rising / falling closes
(紅三兵 / 綠三兵). -/
def threeSoldiersRule (r : List Bar) : Upd :=
  if (bAt r 7).cl < (bAt r 8).cl ∧ (bAt r 8).cl < (bAt r 9).cl then
    match support_price r with
    | some s =>
      if (bAt r 9).cl > s then ⟨["red_three_above_support"], [], .add 5⟩
      else ⟨["red_three"], [], .add 2⟩
    | none => ⟨["red_three"], [], .add 2⟩
  else if (bAt r 8).cl < (bAt r 7).cl ∧ (bAt r 9).cl < (bAt r 8).cl then
    if resistance_price r ≠ 0 ∧ (bAt r 9).cl < resistance_price r then
      ⟨["green_three_below_resistance"], ["green_three"], .add (-4)⟩
    else ⟨["green_three"], [], .add (-2)⟩
  else noUpd

/-- Detector 4, bottom half (lines 198-207): bottom fractal (底分型), the
middle of the last 3 bars has the lowest low, counted only above support. -/
def bottomFractalRule (r : List Bar) : Upd :=
  if (bAt r 8).lo < (bAt r 7).lo ∧ (bAt r 8).lo < (bAt r 9).lo then
    match support_price r with
    | some s => if (bAt r 9).cl > s then ⟨["bottom_fractal_above_support"], [], .add 4⟩ else noUpd
    | none => noUpd
  else noUpd

/-- Detector 4, top half (lines 209-214): top fractal (頂分型), the middle
of the last 3 bars has the highest high, counted only below resistance. -/
def topFractalRule (r : List Bar) : Upd :=
  if (bAt r 7).hi < (bAt r 8).hi ∧ (bAt r 9).hi < (bAt r 8).hi then
    if (bAt r 9).cl < resistance_price r then
      ⟨["top_fractal_below_resistance"], ["top_fractal"], .add (-4)⟩
    else noUpd
  else noUpd

/-- Detector 5a (lines 217-229): a wick longer than twice the body
(上天入地) resets the score to 0 and records a risk factor. -/
def skyEarthShadowRule (r : List Bar) : Upd :=
  let b := bAt r 9
  let body := |b.cl - b.op|
  let upper := b.hi - max b.op b.cl
  let lower := min b.op b.cl - b.lo
  if upper > body * 2 ∨ lower > body * 2 then
    ⟨["sky_earth_shadow"], ["violent_swing"], .reset⟩
  else noUpd

/-- Detector 5b (lines 232-239): a long lower wick is a buy signal on a
high-volume day, a caution otherwise. -/
def lowerShadowRule (r : List Bar) : Upd :=
  let b := bAt r 9
  let body := |b.cl - b.op|
  let lower := min b.op b.cl - b.lo
  if lower > body * (1/2) then
    if is_high_volume r then ⟨["high_volume_lower_shadow"], [], .add 3⟩
    else ⟨["no_volume_lower_shadow"], ["no_volume_lower_shadow"], .add (-2)⟩
  else noUpd

/-- Detector 5c (lines 242-246): upper wick touching the resistance
(high within 98% of it) with the close below the body high. -/
def upperShadowRule (r : List Bar) : Upd :=
  let b := bAt r 9
  if resistance_price r ≠ 0 ∧ b.hi ≥ resistance_price r * (98/100) then
    if b.cl < max b.op b.cl then
      ⟨["upper_shadow_at_resistance"], ["blocked_at_resistance"], .add (-3)⟩
    else noUpd
  else noUpd

/-- Detector 6 (lines 250-259): three consecutive bars with both highs and
lows strictly falling confirm a downtrend. -/
def downtrendRule (r : List Bar) : Upd :=
  if ((bAt r 8).hi < (bAt r 7).hi ∧ (bAt r 9).hi < (bAt r 8).hi) ∧
     ((bAt r 8).lo < (bAt r 7).lo ∧ (bAt r 9).lo < (bAt r 8).lo) then
    ⟨["downtrend_confirmed"], ["downtrend"], .add (-3)⟩
  else noUpd

/-- Detector 7a (lines 262-276): four strictly monotone volumes with the
price moving the same way (梯量). -/
def volumeLadderRule (r : List Bar) : Upd :=
  if (bAt r 6).vol < (bAt r 7).vol ∧ (bAt r 7).vol < (bAt r 8).vol ∧
     (bAt r 8).vol < (bAt r 9).vol then
    if (bAt r 9).cl > (bAt r 6).cl then
      ⟨["rising_volume_ladder"], ["rising_volume_ladder"], .add (-3)⟩
    else noUpd
  else if (bAt r 7).vol < (bAt r 6).vol ∧ (bAt r 8).vol < (bAt r 7).vol ∧
          (bAt r 9).vol < (bAt r 8).vol then
    if (bAt r 9).cl < (bAt r 6).cl then ⟨["falling_volume_ladder"], [], .add 2⟩
    else noUpd
  else noUpd

/-- Detector 7b (lines 279-285): a high-volume bar whose body is below 30%
of its range (量大實體小). -/
def bigVolumeSmallBodyRule (r : List Bar) : Upd :=
  if is_high_volume r then
    let b := bAt r 9
    if |b.cl - b.op| < (b.hi - b.lo) * (3/10) then
      ⟨["big_volume_small_body"], ["big_volume_small_body"], .add (-2)⟩
    else noUpd
  else noUpd

/-- Detector 8 (lines 288-298): `red_count` counts `close > open` over
`recent.tail(4)` — the last 4 bars INCLUDING the latest — and the sell
branch additionally requires the latest bar to close below its open. -/
def consecutiveRedRule (r : List Bar) : Upd :=
  if 4 ≤ ([bAt r 6, bAt r 7, bAt r 8, bAt r 9].countP fun b => b.op < b.cl) ∧
     ((bAt r 9).cl < (bAt r 9).op ∧ is_high_volume r) then
    ⟨["consec_red_then_green_volume"], ["consec_red_then_green_volume"], .add (-4)⟩
  else noUpd

/-- Detector 9 (lines 301-309): high-volume positional rule; day 1 of a
spike resets the score to 0, day 2/3 above support with a red candle is a
buy. -/
def highVolumePositionRule (r : List Bar) : Upd :=
  if is_high_volume r then
    if high_volume_day r = 1 then ⟨["high_volume_day1_watch_only"], [], .reset⟩
    else if high_volume_day r = 2 ∨ high_volume_day r = 3 then
      match support_price r with
      | some s =>
        if (bAt r 9).cl > s then
          if (bAt r 9).cl > (bAt r 9).op then
            ⟨["high_volume_day23_above_support"], [], .add 3⟩
          else noUpd
        else noUpd
      | none => noUpd
    else noUpd
  else noUpd

/-- The sub-detectors of `analyze_volume_price_pattern` in source order
(StockTrend2.py lines 131-309). -/
def codeRules : List (List Bar → Upd) :=
  [volumeSpikeRule, supportPositionRule, threeSoldiersRule, bottomFractalRule,
   topFractalRule, skyEarthShadowRule, lowerShadowRule, upperShadowRule,
   downtrendRule, volumeLadderRule, bigVolumeSmallBodyRule, consecutiveRedRule,
   highVolumePositionRule]

/-- The discrete actions 上車 / 重倉 / 減倉 / 清倉 / 觀望. -/
inductive TradeAction
  | enter
  | heavy
  | reduce
  | clearAll
  | hold
deriving DecidableEq

/-- The risk levels 低 / 中 / 高. -/
inductive RiskLevel
  | low
  | medium
  | high
deriving DecidableEq

/-- StockTrend2.py lines 312-326: the final mapping from `action_score` to
`(action, risk_level)`, with the branches in source order (`>= 5` is tested
before `>= 8`, and `<= -5` before `<= -8`). -/
def scoreToAction (s : ℤ) : TradeAction × RiskLevel :=
  if s ≥ 5 then (.enter, .low)
  else if s ≥ 8 then (.heavy, .low)
  else if s ≤ -5 then (.reduce, .high)
  else if s ≤ -8 then (.clearAll, .high)
  else (.hold, .medium)

/-- The classifier's returned record; `risk_factors` is the list the
function builds internally and folds into `summary` (only membership of
`broke_support` carries logic). -/
structure AnalysisResult where
  signals : List String
  action : TradeAction
  risk_level : RiskLevel
  score : ℤ
  risk_factors : List String
deriving DecidableEq

/-- StockTrend2.py lines 98-349: `analyze_volume_price_pattern`.  Fewer
than 10 bars yields the 資料不足 record; otherwise the sub-detectors run in
source order on `recent = df.tail(10)`, the score is mapped to an action,
and the 破支撐 (`broke_support`) risk factor overrides the action to
清倉 / 高 (lines 328-331). -/
def analyze_volume_price_pattern (df : List Bar) : AnalysisResult :=
  if df.length < 10 then ⟨[], .hold, .medium, 0, []⟩
  else
    let st := runRules codeRules (lastN 10 df)
    let ar := scoreToAction st.score
    if "broke_support" ∈ st.risks then ⟨st.sigs, .clearAll, .high, st.score, st.risks⟩
    else ⟨st.sigs, ar.1, ar.2, st.score, st.risks⟩

/-! ## StockTrend.py — the reversal screen of `analyze_stock_file` -/

/-- One daily bar of `StockTrend.py`'s reversal screen, restricted to the
columns the screened conditions read (`close`, `foreign_net`, `fund_net`,
`dealer_net`). -/
structure SBar where
  close : ℚ
  foreign_net : ℚ
  fund_net : ℚ
  dealer_net : ℚ
deriving DecidableEq

instance : Inhabited SBar := ⟨⟨0, 0, 0, 0⟩⟩

/-- StockTrend.py lines 129-131: `total_net` per bar. -/
def total_net (b : SBar) : ℚ := b.foreign_net + b.fund_net + b.dealer_net

/-- Running sums with a given starting accumulator. -/
def cumsumFrom (acc : ℚ) : List ℚ → List ℚ
  | [] => []
  | x :: xs => (acc + x) :: cumsumFrom (acc + x) xs

/-- StockTrend.py line 132: `cumulative = total_net.cumsum()` over the
analysis window. -/
def cumulative (w : List SBar) : List ℚ := cumsumFrom 0 (w.map total_net)

/-- StockTrend.py line 9 (`MIN_DATA_DAYS`): the window length. -/
def MIN_DATA_DAYS : Nat := 60

/-- StockTrend.py line 10 (`RECENT_BOTTOM_WINDOW`). -/
def RECENT_BOTTOM_WINDOW : Nat := 10

/-- StockTrend.py line 11 (`MIN_REBOUND_AMOUNT`). -/
def MIN_REBOUND_AMOUNT : ℚ := 500

/-- StockTrend.py line 12 (`RISING_CHECK_DAYS`). -/
def RISING_CHECK_DAYS : Nat := 5

/-- StockTrend.py line 13 (`PRICE_RECENT_LOW_WINDOW`). -/
def PRICE_RECENT_LOW_WINDOW : Nat := 10

/-- StockTrend.py line 14 (`PRICE_RISING_DAYS`). -/
def PRICE_RISING_DAYS : Nat := 2

/-- StockTrend.py lines 136-138, condition B: the last 3 bars' `total_net`
are all strictly positive. -/
def cond_B (w : List SBar) : Bool :=
  (lastN 3 (w.map total_net)).all fun t => decide (0 < t)

/-- StockTrend.py lines 140-150, condition C: the cumulative-net minimum is
recent, the rebound from it is large enough, and the last
`RISING_CHECK_DAYS` cumulative values are non-decreasing (that last check
is skipped for windows shorter than `RISING_CHECK_DAYS`, where the flag
stays at its `True` initialisation). -/
def cond_C (w : List SBar) : Bool :=
  let cs := cumulative w
  (decide (cs.length - 1 - npArgmin cs ≤ RECENT_BOTTOM_WINDOW) &&
    decide (MIN_REBOUND_AMOUNT < cs.getLastD 0 - npMin cs)) &&
  (if RISING_CHECK_DAYS ≤ cs.length then nondec (lastN RISING_CHECK_DAYS cs) else true)

/-- StockTrend.py lines 152-160, condition D: the window's minimum close
occurs among the last `PRICE_RECENT_LOW_WINDOW` closes (a value-membership
test, `low_60 in closes[-10:]`), and the last `PRICE_RISING_DAYS` closes
are strictly increasing (requiring at least 2 of them). -/
def cond_D (w : List SBar) : Bool :=
  let closes := w.map SBar.close
  decide (npMin closes ∈ lastN PRICE_RECENT_LOW_WINDOW closes) &&
  (decide (2 ≤ (lastN PRICE_RISING_DAYS closes).length) &&
    strictInc (lastN PRICE_RISING_DAYS closes))

/-! ## StockTrend.py — the series normalizer of `analyze_stock_file` -/

/-- One raw CSV row of `analyze_stock_file` after the `pd.to_numeric(...,
errors="coerce")` pass (lines 113-115): a numeric field holds `none` when
coercion produced NaN.  `date` is still the raw string at this stage. -/
structure Row where
  date : String
  openN : Option ℚ
  highN : Option ℚ
  lowN : Option ℚ
  closeN : Option ℚ
  peN : Option ℚ
  foreignN : Option ℚ
  fundN : Option ℚ
  dealerN : Option ℚ
  volumeN : Option ℚ
deriving DecidableEq

/-- StockTrend.py line 117: the `dropna` subset — every numeric column
except `pe` must have coerced successfully. -/
def rowComplete (r : Row) : Bool :=
  r.openN.isSome && r.highN.isSome && r.lowN.isSome && r.closeN.isSome &&
  r.foreignN.isSome && r.fundN.isSome && r.dealerN.isSome && r.volumeN.isSome

/-- StockTrend.py line 118: the date filter
`df['date'].str.match(r'^\d\x7b4\x7d-\d\x7b2\x7d-\d\x7b2\x7d$')`:
exactly `YYYY-MM-DD` with decimal digits. -/
def dateMatches (s : String) : Bool :=
  match s.data with
  | [y1, y2, y3, y4, d1, m1, m2, d2, a1, a2] =>
    y1.isDigit && y2.isDigit && y3.isDigit && y4.isDigit && (d1 == '-') &&
    m1.isDigit && m2.isDigit && (d2 == '-') && a1.isDigit && a2.isDigit
  | _ => false

/-- Lexicographic order on character lists. -/
def charListLe : List Char → List Char → Bool
  | [], _ => true
  | _ :: _, [] => false
  | x :: xs, y :: ys => if x < y then true else if y < x then false else charListLe xs ys

/-- Date order used by the sort: for strings that pass the `YYYY-MM-DD`
filter, `pd.to_datetime` order coincides with lexicographic string order,
which this models. -/
def dateLe (a b : String) : Bool := charListLe a.data b.data

/-- Insert a row into a date-sorted list of rows. -/
def insertByDate (x : Row) : List Row → List Row
  | [] => [x]
  | y :: ys => if dateLe x.date y.date then x :: y :: ys else y :: insertByDate x ys

/-- Sort rows ascending by date (`df.sort_values('date')`, line 120).
Insertion sort; the sort is modelled up to tie order, which pandas leaves
to its quicksort and no claim depends on. -/
def sortByDate : List Row → List Row
  | [] => []
  | x :: xs => insertByDate x (sortByDate xs)

/-- StockTrend.py lines 117-118: the rows surviving `dropna` and the date
filter, in input order. -/
def validRows (rows : List Row) : List Row :=
  (rows.filter rowComplete).filter fun r => dateMatches r.date

/-- StockTrend.py lines 117-121: the full normalisation of the raw rows —
drop incomplete rows, drop rows with malformed dates, sort ascending by
date, re-index (re-indexing does not change the list).  There is no
duplicate-date handling in the source. -/
def normalizeSeries (rows : List Row) : List Row := sortByDate (validRows rows)

/-! ## StockTrend.py — `fix_price_columns` (corrupted-row repair) -/

/-- The four price fields of a raw row as read with `dtype=str`; `none`
models a NaN cell. -/
structure PriceRow where
  openS : Option String
  highS : Option String
  lowS : Option String
  closeS : Option String
deriving DecidableEq

/-- Python `str.strip()`: remove leading and trailing whitespace. -/
def stripStr (s : String) : String :=
  ⟨((s.data.dropWhile Char.isWhitespace).reverse.dropWhile Char.isWhitespace).reverse⟩

/-- Split a character list into its leading run of decimal digits and the
remainder. -/
def takeDigits : List Char → List Char × List Char
  | [] => ([], [])
  | c :: cs =>
    if c.isDigit then
      let (d, r) := takeDigits cs
      (c :: d, r)
    else ([], c :: cs)

/-- One regex match of `\d+\.\d\x7b1,3\x7d` anchored at the head of the
input: a maximal digit run, a dot, then one to three digits (greedy).
Returns the match and the remaining input. -/
def matchPriceAt (cs : List Char) : Option (List Char × List Char) :=
  let (d1, r1) := takeDigits cs
  if d1.isEmpty then none
  else
    match r1 with
    | '.' :: r2 =>
      let (d2, r3) := takeDigits r2
      if d2.isEmpty then none
      else some (d1 ++ '.' :: d2.take 3, d2.drop 3 ++ r3)
    | _ => none

/-- Scanning loop of `re.findall`: try a match at each position, consume
matches, otherwise advance one character.  The fuel argument (initially the
input length) only serves termination; every step consumes at least one
character. -/
def scanPrices : Nat → List Char → List String
  | 0, _ => []
  | _, [] => []
  | fuel + 1, c :: cs =>
    match matchPriceAt (c :: cs) with
    | some (m, rest) => String.mk m :: scanPrices fuel rest
    | none => scanPrices fuel cs

/-- Model of `re.findall(r'\d+\.\d\x7b1,3\x7d', s)` (StockTrend.py
line 82). -/
def findallPrices (s : String) : List String := scanPrices s.data.length s.data

/-- StockTrend.py lines 76-90: `fix_price_columns`.  A non-NaN `open` field
longer than 12 characters containing a dot is split by regex extraction;
at least 4 extracted prices populate open/high/low/close, fewer mark the
row's `open` as NaN. -/
def fix_price_columns (row : PriceRow) : PriceRow :=
  match row.openS with
  | none => row
  | some s0 =>
    let s := stripStr s0
    if 12 < s.length ∧ '.' ∈ s.data then
      match findallPrices s with
      | p0 :: p1 :: p2 :: p3 :: _ =>
        { row with openS := some p0, highS := some p1, lowS := some p2, closeS := some p3 }
      | _ => { row with openS := none }
    else row

/-! ## StockTrend_Gemini.py — the threshold screen `screen_stocks` -/

/-- One daily bar of `StockTrend_Gemini.py` (開盤價 / 最高價 / 最低價 /
收盤價 / 成交張數 and the three institutional net columns). -/
structure GBar where
  op : ℚ
  hi : ℚ
  lo : ℚ
  cl : ℚ
  vol : ℚ
  foreignNet : ℚ
  fundNet : ℚ
  dealerNet : ℚ
deriving DecidableEq

instance : Inhabited GBar := ⟨⟨0, 0, 0, 0, 0, 0, 0, 0⟩⟩

/-- The six condition switches of `screen_stocks` (lines 110-115). -/
structure GFlags where
  use_price : Bool
  use_ma : Bool
  use_vol : Bool
  use_min_vol : Bool
  use_inst : Bool
  use_shape : Bool
deriving DecidableEq

/-- The numeric parameters of `screen_stocks` (lines 118-123). -/
structure GParams where
  max_price : ℚ
  vol_ratio_limit : ℚ
  min_volume : ℚ
  shadow_limit : ℚ
  ma_short : Nat
  ma_long : Nat
deriving DecidableEq

/-- The defaults of `screen_stocks` (also module constants, lines 33-38). -/
def defaultGParams : GParams :=
  { max_price := 100, vol_ratio_limit := 6/5, min_volume := 5000,
    shadow_limit := 1/5, ma_short := 5, ma_long := 20 }

/-- All six condition switches off. -/
def allOffFlags : GFlags := ⟨false, false, false, false, false, false⟩

/-- Only the price-ceiling condition on. -/
def priceOnlyFlags : GFlags := ⟨true, false, false, false, false, false⟩

/-- The numeric content of the dict `screen_stocks` returns on a pass
(lines 191-201); the id/name/date decorations carry no logic. -/
structure GOut where
  closePrice : ℚ
  pctChange : ℚ
  volMultiple : ℚ
  instTotal : ℚ
  shadowPct : ℚ
deriving DecidableEq

/-- Rolling mean evaluated at the last row: `rolling(window=k).mean()` of a
column is the mean of its last `k` values (the sources only read it when
the series has at least `k` rows). -/
def rollingMean (k : Nat) (xs : List ℚ) : ℚ := (lastN k xs).sum / (k : ℚ)

/-- StockTrend_Gemini.py lines 108-206: `screen_stocks`.  The input series
is modelled after the date sort and numeric coercion of lines 141-150;
below `ma_long` bars the screen returns `none`, otherwise it passes exactly
when all six conditions hold, a switched-off condition being `True`
(lines 164-190). -/
def screen_stocks (df : List GBar) (fl : GFlags) (p : GParams) : Option GOut :=
  if df.length < p.ma_long then none
  else
    let closes := df.map GBar.cl
    let vols := df.map GBar.vol
    let latest := df.getLastD default
    let prev := df.getD (df.length - 2) default
    let ma_S := rollingMean p.ma_short closes
    let ma_L := rollingMean p.ma_long closes
    let volMA := rollingMean p.ma_short vols
    let volMult := if volMA ≠ 0 then latest.vol / volMA else 0
    let instTotal := latest.foreignNet + latest.fundNet + latest.dealerNet
    let shadowVal := (latest.hi - max latest.op latest.cl) / (latest.hi - latest.lo + 1/100)
    let c_price := if fl.use_price then decide (latest.cl ≤ p.max_price) else true
    let c_ma := if fl.use_ma then decide (latest.cl > ma_S ∧ ma_S > ma_L) else true
    let c_vol := if fl.use_vol then decide (volMult ≥ p.vol_ratio_limit) else true
    let c_min_vol := if fl.use_min_vol then decide (latest.vol ≥ p.min_volume) else true
    let c_inst := if fl.use_inst then decide (instTotal > 0) else true
    let c_shape := if fl.use_shape then decide (shadowVal ≤ p.shadow_limit) else true
    if c_price && c_ma && c_vol && c_min_vol && c_inst && c_shape then
      some ⟨latest.cl, (latest.cl - prev.cl) / prev.cl * 100, volMult, instTotal, shadowVal⟩
    else none

/-! ## Auxiliary definitions used by the statements -/

/-- The additive value of a score adjustment (0 for a reset); the score of
a reset-free run is the sum of these values. -/
def opValue : ScoreOp → ℤ
  | .add n => n
  | .reset => 0

/-- Flip the sign of a bar's three institutional nets (and hence of its
`total_net`). -/
def negBar (b : SBar) : SBar :=
  ⟨b.close, -b.foreign_net, -b.fund_net, -b.dealer_net⟩

/-- The pass conditions of `screen_stocks` as the specification words them:
price ceiling, bullish moving-average stacking, volume ratio, volume floor,
positive institutional total on the latest bar, and the upper-shadow ratio
bound, each vacuous when its switch is off. -/
def screenPassSpec (df : List GBar) (fl : GFlags) (p : GParams) : Prop :=
  (fl.use_price = true → (df.getLastD default).cl ≤ p.max_price) ∧
  (fl.use_ma = true →
    rollingMean p.ma_long (df.map GBar.cl) < rollingMean p.ma_short (df.map GBar.cl) ∧
    rollingMean p.ma_short (df.map GBar.cl) < (df.getLastD default).cl) ∧
  (fl.use_vol = true →
    p.vol_ratio_limit ≤ (df.getLastD default).vol / rollingMean p.ma_short (df.map GBar.vol)) ∧
  (fl.use_min_vol = true → p.min_volume ≤ (df.getLastD default).vol) ∧
  (fl.use_inst = true →
    0 < (df.getLastD default).foreignNet + (df.getLastD default).fundNet +
      (df.getLastD default).dealerNet) ∧
  (fl.use_shape = true →
    ((df.getLastD default).hi - max (df.getLastD default).op (df.getLastD default).cl) /
      ((df.getLastD default).hi - (df.getLastD default).lo + 1/100) ≤ p.shadow_limit)

/-! ## Concrete inputs used by counterexamples, failing-input evaluations
and witnesses -/

/-- A quiet bar: flat price, moderate volume. -/
def flatBar : Bar := ⟨200, 204, 198, 200, 100⟩

/-- A 10-bar series reaching `action_score = 14`: a day-2 volume spike with
the latest close above support, three rising closes, a bottom fractal, and
the day-2/3 positional bonus (weights 2 + 5 + 4 + 3). -/
def c1df : List Bar :=
  [flatBar, flatBar, flatBar, flatBar, flatBar, flatBar,
   ⟨200, 204, 198, 200, 70⟩,
   ⟨200, 206, 198, 204, 60⟩,
   ⟨204, 211, 190, 210, 200⟩,
   ⟨212, 221, 211, 220, 300⟩]

/-- A 10-bar series whose latest bar has a lower wick longer than twice its
body, firing the score reset of detector 5a and the caution of detector 5b
and nothing else. -/
def c3df : List Bar :=
  [flatBar, flatBar, flatBar, flatBar, flatBar, flatBar, flatBar, flatBar,
   flatBar, ⟨200, 202, 180, 202, 100⟩]

/-- The sub-detectors with `skyEarthShadowRule` (the score reset) and
`lowerShadowRule` (an additive weight) transposed — a permutation of
`codeRules`. -/
def c3permRules : List (List Bar → Upd) :=
  [volumeSpikeRule, supportPositionRule, threeSoldiersRule, bottomFractalRule,
   topFractalRule, lowerShadowRule, skyEarthShadowRule, upperShadowRule,
   downtrendRule, volumeLadderRule, bigVolumeSmallBodyRule, consecutiveRedRule,
   highVolumePositionRule]

/-- A reset-free 10-bar series: three rising closes without a support line,
so only the weight +2 triggers. -/
def c3wdf : List Bar :=
  [flatBar, flatBar, flatBar, flatBar, flatBar, flatBar, flatBar,
   ⟨200, 204, 198, 201, 100⟩,
   ⟨200, 204, 198, 202, 100⟩,
   ⟨200, 204, 199, 203, 100⟩]

/-- A complete raw row with date 2024-01-02. -/
def c4row1 : Row :=
  ⟨"2024-01-02", some 10, some 11, some 9, some 10, some 1, some 1, some 1, some 1, some 100⟩

/-- A second complete raw row with the same date 2024-01-02. -/
def c4row2 : Row :=
  ⟨"2024-01-02", some 20, some 21, some 19, some 20, some 1, some 2, some 2, some 2, some 200⟩

/-- A raw input containing two rows with the same date. -/
def c4rows : List Row := [c4row1, c4row2]

/-- A 10-bar series whose bars -5..-2 all close above their open and whose
latest bar closes below its open on a volume spike: the configuration the
consecutive-up-days detector is meant to flag. -/
def c5df : List Bar :=
  [flatBar, flatBar, flatBar, flatBar, flatBar,
   ⟨200, 212, 198, 210, 100⟩,
   ⟨200, 212, 198, 210, 100⟩,
   ⟨200, 212, 198, 210, 100⟩,
   ⟨200, 212, 198, 210, 100⟩,
   ⟨210, 212, 198, 200, 300⟩]

/-- Three reversal-screen bars with strictly positive institutional
totals. -/
def c6barA : SBar := ⟨10, 5, 3, 2⟩

/-- Second witness bar for condition B. -/
def c6barB : SBar := ⟨11, 1, 1, 1⟩

/-- Third witness bar for condition B. -/
def c6barC : SBar := ⟨12, 2, 2, 2⟩

/-- A 5-bar reversal-screen window: the cumulative net bottoms at -600 on
the first bar and recovers monotonically to 150. -/
def c7wdf : List SBar :=
  [⟨0, -600, 0, 0⟩, ⟨0, 300, 0, 0⟩, ⟨0, 200, 0, 0⟩, ⟨0, 150, 0, 0⟩, ⟨0, 100, 0, 0⟩]

/-- A 3-bar reversal-screen window: the minimum close 5 sits in the last-10
window and the last two closes rise strictly. -/
def c8wdf : List SBar :=
  [⟨5, 0, 0, 0⟩, ⟨6, 0, 0, 0⟩, ⟨7, 0, 0, 0⟩]

/-- A quiet Gemini bar closing exactly at 100. -/
def gFlatBar : GBar := ⟨100, 100, 100, 100, 1000, 0, 0, 0⟩

/-- Twenty bars closing at 100: at the price ceiling, inclusively. -/
def c9aDf : List GBar :=
  [gFlatBar, gFlatBar, gFlatBar, gFlatBar, gFlatBar, gFlatBar, gFlatBar,
   gFlatBar, gFlatBar, gFlatBar, gFlatBar, gFlatBar, gFlatBar, gFlatBar,
   gFlatBar, gFlatBar, gFlatBar, gFlatBar, gFlatBar, gFlatBar]

/-- Twenty bars whose latest close is 100.01: just above the ceiling. -/
def c9bDf : List GBar :=
  [gFlatBar, gFlatBar, gFlatBar, gFlatBar, gFlatBar, gFlatBar, gFlatBar,
   gFlatBar, gFlatBar, gFlatBar, gFlatBar, gFlatBar, gFlatBar, gFlatBar,
   gFlatBar, gFlatBar, gFlatBar, gFlatBar, gFlatBar,
   ⟨100, 102, 100, 10001/100, 1000, 0, 0, 0⟩]

/-- A raw price row whose `open` field holds four concatenated prices. -/
def c10row : PriceRow :=
  ⟨some "12.50012.60012.40012.550", some "?", some "?", some "?"⟩

/-! ## Helper lemmas -/

/-- A switched condition is true exactly when its switch implies the
condition. -/
theorem flag_cond_iff (b : Bool) (p : Prop) [Decidable p] :
    ((if b then decide p else true) = true) ↔ (b = true → p) := by
  cases b <;> simp

/-- The last `n` elements of `l₁ ++ l₂` are `l₂` when `l₂` has length
`n`. -/
theorem lastN_append {α : Type} (l₁ l₂ : List α) {n : Nat} (h : l₂.length = n) :
    lastN n (l₁ ++ l₂) = l₂ := by
  unfold lastN
  rw [List.length_append, h, Nat.add_sub_cancel]
  exact List.drop_left l₁ l₂

/-- The pairwise-adjacent non-decrease check is `List.Chain'` of `≤`. -/
theorem nondec_iff_chain' (l : List ℚ) : nondec l = true ↔ l.Chain' (· ≤ ·) := by
  induction l with
  | nil => simp [nondec]
  | cons x xs ih =>
    cases xs with
    | nil => simp [nondec]
    | cons y rest =>
      rw [show nondec (x :: y :: rest) = (decide (x ≤ y) && nondec (y :: rest)) from rfl,
        Bool.and_eq_true, decide_eq_true_eq, List.chain'_cons, ih]

/-- A left fold of `min` is bounded by its initial value. -/
theorem foldl_min_le_init (a : ℚ) (l : List ℚ) : l.foldl min a ≤ a := by
  induction l generalizing a with
  | nil => simp
  | cons x xs ih => exact le_trans (ih (min a x)) (min_le_left a x)

/-- A left fold of `min` is bounded by every list element. -/
theorem foldl_min_le_mem (a : ℚ) {l : List ℚ} {z : ℚ} (hz : z ∈ l) :
    l.foldl min a ≤ z := by
  induction l generalizing a with
  | nil => cases hz
  | cons x xs ih =>
    rcases List.mem_cons.mp hz with rfl | hz'
    · calc xs.foldl min (min a z) ≤ min a z := foldl_min_le_init _ _
        _ ≤ z := min_le_right _ _
    · exact ih (min a x) hz'

/-- A left fold of `min` is the initial value or a list element. -/
theorem foldl_min_mem (a : ℚ) (l : List ℚ) : l.foldl min a = a ∨ l.foldl min a ∈ l := by
  induction l generalizing a with
  | nil => left; rfl
  | cons x xs ih =>
    rcases ih (min a x) with h | h
    · rcases min_choice a x with hm | hm
      · left; rw [List.foldl_cons, h, hm]
      · right; rw [List.foldl_cons, h, hm]; exact List.mem_cons_self x xs
    · right; exact List.mem_cons_of_mem x h

/-- The minimum of a nonempty list is attained. -/
theorem npMin_mem {l : List ℚ} (h : l ≠ []) : npMin l ∈ l := by
  cases l with
  | nil => exact absurd rfl h
  | cons x xs =>
    rcases foldl_min_mem x xs with hm | hm
    · rw [npMin, hm]; exact List.mem_cons_self x xs
    · exact List.mem_cons_of_mem x hm

/-- The computed minimum is a lower bound for every element. -/
theorem npMin_le {l : List ℚ} {z : ℚ} (hz : z ∈ l) : npMin l ≤ z := by
  cases l with
  | nil => cases hz
  | cons x xs =>
    rcases List.mem_cons.mp hz with rfl | hz'
    · exact foldl_min_le_init z xs
    · exact foldl_min_le_mem x hz'

/-- A member that bounds every element below is the computed minimum. -/
theorem npMin_eq_of_isLeast {l : List ℚ} {g : ℚ} (hmem : g ∈ l)
    (hlb : ∀ x ∈ l, g ≤ x) : npMin l = g :=
  le_antisymm (npMin_le hmem) (hlb _ (npMin_mem (List.ne_nil_of_mem hmem)))

/-- The cumulative-sum list has the length of its input. -/
theorem cumsumFrom_length (acc : ℚ) (l : List ℚ) :
    (cumsumFrom acc l).length = l.length := by
  induction l generalizing acc with
  | nil => rfl
  | cons x xs ih => simp [cumsumFrom, ih]

/-- A reset-free run of sub-detectors adds the sum of their weights to the
initial score. -/
theorem foldl_score_of_no_reset (r : List Bar) (rs : List (List Bar → Upd)) :
    ∀ st : ClassifierState,
      (∀ rule ∈ rs, (rule r).sop ≠ ScoreOp.reset) →
      (rs.foldl (fun st rule => applyUpd st (rule r)) st).score =
        st.score + (rs.map fun rule => opValue (rule r).sop).sum := by
  induction rs with
  | nil => intro st _; simp
  | cons a l ih =>
    intro st h
    have ha := h a (List.mem_cons_self _ _)
    simp only [List.foldl_cons, List.map_cons, List.sum_cons]
    rw [ih _ fun rule hr => h rule (List.mem_cons_of_mem _ hr)]
    cases hsop : (a r).sop with
    | add n =>
      have hs : (applyUpd st (a r)).score = st.score + n := by
        simp only [applyUpd, hsop]
      rw [hs, show opValue (ScoreOp.add n) = n from rfl]
      exact add_assoc st.score n _
    | reset => exact absurd hsop ha

/-- Totality of the lexicographic order on character lists. -/
theorem charListLe_total : ∀ a b : List Char, charListLe a b = true ∨ charListLe b a = true
  | [], _ => .inl rfl
  | _ :: _, [] => .inr rfl
  | x :: xs, y :: ys => by
    simp only [charListLe]
    rcases lt_trichotomy x y with h | h | h
    · left; rw [if_pos h]
    · subst h
      rw [if_neg (lt_irrefl x), if_neg (lt_irrefl x), if_neg (lt_irrefl x),
        if_neg (lt_irrefl x)]
      exact charListLe_total xs ys
    · right; rw [if_pos h]

/-- Transitivity of the lexicographic order on character lists. -/
theorem charListLe_trans : ∀ a b c : List Char,
    charListLe a b = true → charListLe b c = true → charListLe a c = true
  | [], _, _, _, _ => rfl
  | _ :: _, [], _, hab, _ => by simp [charListLe] at hab
  | _ :: _, _ :: _, [], _, hbc => by simp [charListLe] at hbc
  | x :: xs, y :: ys, z :: zs, hab, hbc => by
    simp only [charListLe] at hab hbc ⊢
    rcases lt_trichotomy x y with hxy | hxy | hxy
    · rcases lt_trichotomy y z with hyz | hyz | hyz
      · rw [if_pos (lt_trans hxy hyz)]
      · subst hyz; rw [if_pos hxy]
      · rw [if_neg (lt_asymm hyz), if_pos hyz] at hbc; cases hbc
    · subst hxy
      rw [if_neg (lt_irrefl x), if_neg (lt_irrefl x)] at hab
      rcases lt_trichotomy x z with hyz | hyz | hyz
      · rw [if_pos hyz]
      · subst hyz
        rw [if_neg (lt_irrefl x), if_neg (lt_irrefl x)] at hbc ⊢
        exact charListLe_trans xs ys zs hab hbc
      · rw [if_neg (lt_asymm hyz), if_pos hyz] at hbc; cases hbc
    · rw [if_neg (lt_asymm hxy), if_pos hxy] at hab; cases hab

/-- Inserting into a list is a permutation of prepending. -/
theorem insertByDate_perm (x : Row) (l : List Row) : (insertByDate x l).Perm (x :: l) := by
  induction l with
  | nil => exact List.Perm.refl _
  | cons y ys ih =>
    unfold insertByDate
    split
    · exact List.Perm.refl _
    · exact (ih.cons y).trans (List.Perm.swap x y ys)

/-- The insertion sort permutes its input. -/
theorem sortByDate_perm (l : List Row) : (sortByDate l).Perm l := by
  induction l with
  | nil => exact List.Perm.refl _
  | cons x xs ih => exact (insertByDate_perm x (sortByDate xs)).trans (ih.cons x)

/-- Insertion into a date-sorted list keeps it date-sorted. -/
theorem pairwise_insertByDate (x : Row) (l : List Row)
    (hl : l.Pairwise fun a b => dateLe a.date b.date = true) :
    (insertByDate x l).Pairwise fun a b => dateLe a.date b.date = true := by
  induction l with
  | nil => simp [insertByDate]
  | cons y ys ih =>
    rcases List.pairwise_cons.mp hl with ⟨hy, hys⟩
    unfold insertByDate
    split
    next hxy =>
      refine List.pairwise_cons.mpr ⟨?_, hl⟩
      intro b hb
      rcases List.mem_cons.mp hb with rfl | hb'
      · exact hxy
      · exact charListLe_trans _ _ _ hxy (hy b hb')
    next hxy =>
      have hyx : dateLe y.date x.date = true := by
        rcases charListLe_total x.date.data y.date.data with h | h
        · exact absurd h hxy
        · exact h
      refine List.pairwise_cons.mpr ⟨?_, ih hys⟩
      intro b hb
      rcases List.mem_cons.mp ((insertByDate_perm x ys).mem_iff.mp hb) with rfl | hb'
      · exact hyx
      · exact hy b hb'

/-- The insertion sort produces a date-sorted list. -/
theorem sortByDate_sorted (l : List Row) :
    (sortByDate l).Pairwise fun a b => dateLe a.date b.date = true := by
  induction l with
  | nil => simp [sortByDate]
  | cons x xs ih => exact pairwise_insertByDate x _ ih

/-! ## Claim theorems -/

/-- Claim C1: the spec maps `score ≥ 8` to 重倉 (heavy-load) and
`score ≤ -8` to 清倉 (exit), but the source tests `score >= 5` before
`score >= 8` (and `score <= -5` before `score <= -8`, lines 312-326), so a
score of 8 or more yields 上車 (enter): on the concrete 10-bar series
`c1df` with no support break the accumulated score is 14 yet the returned
action is enter, not heavy-load, contradicting the score legend the source
itself renders (StockTrend2.py lines 960-964). -/
theorem C1_score_mapping_divergence :
    scoreToAction 8 = (TradeAction.enter, RiskLevel.low) ∧
    scoreToAction (-8) = (TradeAction.reduce, RiskLevel.high) ∧
    (analyze_volume_price_pattern c1df).score = 14 ∧
    (analyze_volume_price_pattern c1df).action = TradeAction.enter ∧
    "broke_support" ∉ (analyze_volume_price_pattern c1df).risk_factors := by
  have hb4 : bAt c1df 4 = flatBar := rfl
  have hb5 : bAt c1df 5 = flatBar := rfl
  have hb6 : bAt c1df 6 = ⟨200, 204, 198, 200, 70⟩ := rfl
  have hb7 : bAt c1df 7 = ⟨200, 206, 198, 204, 60⟩ := rfl
  have hb8 : bAt c1df 8 = ⟨204, 211, 190, 210, 200⟩ := rfl
  have hb9 : bAt c1df 9 = ⟨212, 221, 211, 220, 300⟩ := rfl
  have hhv : is_high_volume c1df = true := by
    norm_num [is_high_volume, hb6, hb7, hb8, hb9, npMax, max_def]
  have hday : high_volume_day c1df = 2 := by
    norm_num [high_volume_day, hb4, hb5, hb6, hb7, hb8, flatBar, npMax, max_def]
  have hsup : support_price c1df = some 212 := by
    norm_num [support_price, hhv, hb9, min_def]
  have hrp : resistance_price c1df = 221 := by
    norm_num [resistance_price, c1df, flatBar, npMax, max_def]
  have h01 : volumeSpikeRule c1df = ⟨["high_volume_day1_watch"], [], .add 0⟩ := by
    norm_num [volumeSpikeRule, hhv]
  have h02 : supportPositionRule c1df = ⟨["above_support"], [], .add 2⟩ := by
    unfold supportPositionRule
    rw [hsup, hb9]
    norm_num
  have h03 : threeSoldiersRule c1df = ⟨["red_three_above_support"], [], .add 5⟩ := by
    unfold threeSoldiersRule
    rw [hsup, hb7, hb8, hb9]
    norm_num
  have h04 : bottomFractalRule c1df = ⟨["bottom_fractal_above_support"], [], .add 4⟩ := by
    unfold bottomFractalRule
    rw [hsup, hb7, hb8, hb9]
    norm_num
  have h05 : topFractalRule c1df = noUpd := by
    norm_num [topFractalRule, hrp, hb7, hb8, hb9]
  have h06 : skyEarthShadowRule c1df = noUpd := by
    norm_num [skyEarthShadowRule, hb9, min_def, max_def]
  have h07 : lowerShadowRule c1df = noUpd := by
    norm_num [lowerShadowRule, hb9, min_def]
  have h08 : upperShadowRule c1df = noUpd := by
    norm_num [upperShadowRule, hrp, hb9, max_def]
  have h09 : downtrendRule c1df = noUpd := by
    norm_num [downtrendRule, hb7, hb8, hb9]
  have h10 : volumeLadderRule c1df = noUpd := by
    norm_num [volumeLadderRule, hb6, hb7, hb8, hb9]
  have h11 : bigVolumeSmallBodyRule c1df = noUpd := by
    norm_num [bigVolumeSmallBodyRule, hhv, hb9]
  have h12 : consecutiveRedRule c1df = noUpd := by
    norm_num [consecutiveRedRule, hb6, hb7, hb8, hb9, List.countP_cons, List.countP_nil]
  have h13 : highVolumePositionRule c1df = ⟨["high_volume_day23_above_support"], [], .add 3⟩ := by
    unfold highVolumePositionRule
    rw [hhv, hday, hsup, hb9]
    norm_num
  have hrun : runRules codeRules c1df =
      ⟨14, ["high_volume_day1_watch", "above_support", "red_three_above_support",
            "bottom_fractal_above_support", "high_volume_day23_above_support"], []⟩ := by
    simp only [runRules, codeRules, List.foldl_cons, List.foldl_nil,
      h01, h02, h03, h04, h05, h06, h07, h08, h09, h10, h11, h12, h13]
    norm_num [applyUpd, noUpd]
  have hl : lastN 10 c1df = c1df := rfl
  have hlen : ¬ (c1df.length < 10) := by norm_num [c1df]
  have hfin : analyze_volume_price_pattern c1df =
      ⟨["high_volume_day1_watch", "above_support", "red_three_above_support",
        "bottom_fractal_above_support", "high_volume_day23_above_support"],
       .enter, .low, 14, []⟩ := by
    simp only [analyze_volume_price_pattern, hl, hrun, if_neg hlen]
    norm_num [scoreToAction]
  refine ⟨by norm_num [scoreToAction], by norm_num [scoreToAction], ?_, ?_, ?_⟩ <;>
    simp [hfin]

/-- Claim C2: whenever the classifier records the 破支撐 (broke-support)
risk factor, the returned action is 清倉 (exit) with risk 高 (high),
regardless of the accumulated score: for every input series, either the
result is exit/high or the broke-support factor is absent. -/
theorem C2_broke_support_override (df : List Bar) :
    ((analyze_volume_price_pattern df).action = TradeAction.clearAll ∧
      (analyze_volume_price_pattern df).risk_level = RiskLevel.high) ∨
    "broke_support" ∉ (analyze_volume_price_pattern df).risk_factors := by
  by_cases h : df.length < 10
  · right
    simp only [analyze_volume_price_pattern, if_pos h]
    exact List.not_mem_nil _
  · by_cases hm : "broke_support" ∈ (runRules codeRules (lastN 10 df)).risks
    · left
      constructor
      · simp only [analyze_volume_price_pattern, if_neg h, if_pos hm]
      · simp only [analyze_volume_price_pattern, if_neg h, if_pos hm]
    · right
      simp only [analyze_volume_price_pattern, if_neg h, if_neg hm]
      exact hm

/-- Claim C3 counterexample: the score accumulation is not
order-independent, because the shadow-geometry detector resets the running
score to 0 instead of adding a weight.  On `c3df` the source order (reset,
then the -2 caution) yields score -2, while transposing the two detectors
(a permutation of the detector list) yields score 0. -/
theorem C3_order_dependence_counterexample :
    codeRules.Perm c3permRules ∧
    (analyze_volume_price_pattern c3df).score = -2 ∧
    (runRules codeRules c3df).score = -2 ∧
    (runRules c3permRules c3df).score = 0 := by
  have hb6 : bAt c3df 6 = flatBar := rfl
  have hb7 : bAt c3df 7 = flatBar := rfl
  have hb8 : bAt c3df 8 = flatBar := rfl
  have hb9 : bAt c3df 9 = ⟨200, 202, 180, 202, 100⟩ := rfl
  have hb4 : bAt c3df 4 = flatBar := rfl
  have hb5 : bAt c3df 5 = flatBar := rfl
  have hhv : is_high_volume c3df = false := by
    norm_num [is_high_volume, hb6, hb7, hb8, hb9, flatBar, npMax, max_def]
  have hsup : support_price c3df = none := by
    unfold support_price
    rw [hhv]
    norm_num
  have hrp : resistance_price c3df = 204 := by
    norm_num [resistance_price, c3df, flatBar, npMax, max_def]
  have h01 : volumeSpikeRule c3df = noUpd := by
    norm_num [volumeSpikeRule, hhv]
  have h02 : supportPositionRule c3df = noUpd := by
    unfold supportPositionRule
    rw [hsup]
  have h03 : threeSoldiersRule c3df = noUpd := by
    unfold threeSoldiersRule
    rw [hsup, hb7, hb8, hb9]
    norm_num [flatBar]
  have h04 : bottomFractalRule c3df = noUpd := by
    unfold bottomFractalRule
    rw [hsup, hb7, hb8, hb9]
    norm_num [flatBar]
  have h05 : topFractalRule c3df = noUpd := by
    unfold topFractalRule
    rw [hrp, hb7, hb8, hb9]
    norm_num [flatBar]
  have h06 : skyEarthShadowRule c3df = ⟨["sky_earth_shadow"], ["violent_swing"], .reset⟩ := by
    unfold skyEarthShadowRule
    rw [hb9]
    norm_num [min_def, max_def]
  have h07 : lowerShadowRule c3df = ⟨["no_volume_lower_shadow"], ["no_volume_lower_shadow"], .add (-2)⟩ := by
    unfold lowerShadowRule
    rw [hhv, hb9]
    norm_num [min_def]
  have h08 : upperShadowRule c3df = noUpd := by
    unfold upperShadowRule
    rw [hrp, hb9]
    norm_num [max_def]
  have h09 : downtrendRule c3df = noUpd := by
    unfold downtrendRule
    rw [hb7, hb8, hb9]
    norm_num [flatBar]
  have h10 : volumeLadderRule c3df = noUpd := by
    unfold volumeLadderRule
    rw [hb6, hb7, hb8, hb9]
    norm_num [flatBar]
  have h11 : bigVolumeSmallBodyRule c3df = noUpd := by
    unfold bigVolumeSmallBodyRule
    rw [hhv]
    norm_num
  have h12 : consecutiveRedRule c3df = noUpd := by
    unfold consecutiveRedRule
    rw [hb6, hb7, hb8, hb9]
    norm_num [flatBar, List.countP_cons, List.countP_nil]
  have h13 : highVolumePositionRule c3df = noUpd := by
    unfold highVolumePositionRule
    rw [hhv]
    norm_num
  have hrunc : (runRules codeRules c3df).score = -2 := by
    simp only [runRules, codeRules, List.foldl_cons, List.foldl_nil,
      h01, h02, h03, h04, h05, h06, h07, h08, h09, h10, h11, h12, h13]
    norm_num [applyUpd, noUpd]
  have hrunp : (runRules c3permRules c3df).score = 0 := by
    simp only [runRules, c3permRules, List.foldl_cons, List.foldl_nil,
      h01, h02, h03, h04, h05, h06, h07, h08, h09, h10, h11, h12, h13]
    norm_num [applyUpd, noUpd]
  refine ⟨?_, ?_, hrunc, hrunp⟩
  · unfold codeRules c3permRules
    exact (((((List.Perm.swap _ _ _).cons _).cons _).cons _).cons _).cons _
  · have hl : lastN 10 c3df = c3df := rfl
    have hlen : ¬ (c3df.length < 10) := by norm_num [c3df]
    simp only [analyze_volume_price_pattern, hl, if_neg hlen]
    split
    · exact hrunc
    · exact hrunc

/-- Claim C3 (amended): the final score is a pure additive sum of the
triggered weights, invariant under permutation of the sub-detectors, only
on series where no reset rule (shadow geometry, high-volume day 1) fires;
the resets make evaluation order significant in general. -/
theorem C3_score_additive_without_resets (r : List Bar) (rs : List (List Bar → Upd))
    (hperm : codeRules.Perm rs)
    (hnr : ∀ rule ∈ codeRules, (rule r).sop ≠ ScoreOp.reset) :
    (runRules rs r).score = (runRules codeRules r).score ∧
    (runRules codeRules r).score = (codeRules.map fun rule => opValue (rule r).sop).sum := by
  have h1 := foldl_score_of_no_reset r codeRules ⟨0, [], []⟩ hnr
  have h2 := foldl_score_of_no_reset r rs ⟨0, [], []⟩ fun rule hr =>
    hnr rule (hperm.mem_iff.mpr hr)
  have hsum := (hperm.map fun rule => opValue (rule r).sop).sum_eq
  constructor
  · unfold runRules
    rw [h1, h2, hsum]
  · unfold runRules
    rw [h1]
    simp

/-- Claim C3 witness: on the reset-free series `c3wdf` the transposed
detector list produces the same score as the source order. -/
theorem C3_score_additive_without_resets_witness :
    codeRules.Perm c3permRules ∧
    (∀ rule ∈ codeRules, (rule c3wdf).sop ≠ ScoreOp.reset) ∧
    (runRules c3permRules c3wdf).score = (runRules codeRules c3wdf).score := by
  have hb6 : bAt c3wdf 6 = flatBar := rfl
  have hb7 : bAt c3wdf 7 = ⟨200, 204, 198, 201, 100⟩ := rfl
  have hb8 : bAt c3wdf 8 = ⟨200, 204, 198, 202, 100⟩ := rfl
  have hb9 : bAt c3wdf 9 = ⟨200, 204, 199, 203, 100⟩ := rfl
  have hhv : is_high_volume c3wdf = false := by
    norm_num [is_high_volume, hb6, hb7, hb8, hb9, flatBar, npMax, max_def]
  have hsup : support_price c3wdf = none := by
    unfold support_price
    rw [hhv]
    norm_num
  have hrp : resistance_price c3wdf = 204 := by
    norm_num [resistance_price, c3wdf, flatBar, npMax, max_def]
  have hperm : codeRules.Perm c3permRules := by
    unfold codeRules c3permRules
    exact (((((List.Perm.swap _ _ _).cons _).cons _).cons _).cons _).cons _
  have hnr : ∀ rule ∈ codeRules, (rule c3wdf).sop ≠ ScoreOp.reset := by
    intro rule hr
    fin_cases hr
    · norm_num [volumeSpikeRule, hhv, noUpd]
      decide
    · unfold supportPositionRule
      rw [hsup]
      norm_num [noUpd]
      decide
    · unfold threeSoldiersRule
      rw [hsup, hb7, hb8, hb9]
      norm_num [noUpd]
      decide
    · unfold bottomFractalRule
      rw [hsup, hb7, hb8, hb9]
      norm_num [noUpd]
      decide
    · unfold topFractalRule
      rw [hrp, hb7, hb8, hb9]
      norm_num [noUpd]
      decide
    · unfold skyEarthShadowRule
      rw [hb9]
      norm_num [min_def, max_def, noUpd]
      decide
    · unfold lowerShadowRule
      rw [hhv, hb9]
      norm_num [min_def, noUpd]
      decide
    · unfold upperShadowRule
      rw [hrp, hb9]
      norm_num [max_def, noUpd]
      decide
    · unfold downtrendRule
      rw [hb7, hb8, hb9]
      norm_num [noUpd]
      decide
    · unfold volumeLadderRule
      rw [hb6, hb7, hb8, hb9]
      norm_num [flatBar, noUpd]
      decide
    · unfold bigVolumeSmallBodyRule
      rw [hhv]
      norm_num [noUpd]
      decide
    · unfold consecutiveRedRule
      rw [hb6, hb7, hb8, hb9]
      norm_num [flatBar, List.countP_cons, List.countP_nil, noUpd]
      decide
    · unfold highVolumePositionRule
      rw [hhv]
      norm_num [noUpd]
      decide
  exact ⟨hperm, hnr, (C3_score_additive_without_resets c3wdf c3permRules hperm hnr).1⟩

/-- Claim C4 counterexample: the normalizer keeps both rows of a
duplicated date — there is no duplicate-date drop in StockTrend.py
lines 117-121 — so the series handed to the detectors can contain
duplicate dates, and the first-seen row is not replaced by the last. -/
theorem C4_duplicate_dates_counterexample :
    normalizeSeries c4rows = [c4row1, c4row2] ∧
    ¬ (normalizeSeries c4rows).Pairwise (fun a b => a.date ≠ b.date) := by
  have h : normalizeSeries c4rows = [c4row1, c4row2] := by rfl
  refine ⟨h, ?_⟩
  rw [h]
  intro hp
  exact (List.pairwise_cons.mp hp).1 c4row2 (List.mem_singleton_self _) rfl

/-- Claim C4 (amended): the Series Normalizer sorts the surviving rows
ascending by date and re-indexes, but performs no duplicate-date drop:
for every date, the normalized series contains exactly as many rows as
survived validation, duplicates included. -/
theorem C4_sorted_but_no_dedup (rows : List Row) :
    (normalizeSeries rows).Pairwise (fun a b => dateLe a.date b.date = true) ∧
    ∀ d : String, (normalizeSeries rows).countP (fun r => r.date == d) =
      (validRows rows).countP (fun r => r.date == d) := by
  refine ⟨sortByDate_sorted _, fun d => ?_⟩
  exact (sortByDate_perm (validRows rows)).countP_eq _

/-- Claim C5: the consecutive-up-days detector is dead code: `red_count`
counts `close > open` over `recent.tail(4)` — the last 4 bars including
the latest — while its sell branch requires the latest bar to close below
its open, so `red_count >= 4` cannot hold there.  On the failing input
`c5df` (four bars closing above their opens followed by a bar closing
below its open on a volume spike, exactly the configuration the signal
連紅≥4天見綠放量 describes) the classifier emits neither the signal nor
the risk factor. -/
theorem C5_consecutive_red_detector_dead :
    (∀ r : List Bar, consecutiveRedRule r = noUpd) ∧
    "consec_red_then_green_volume" ∉ (analyze_volume_price_pattern c5df).signals ∧
    "consec_red_then_green_volume" ∉ (analyze_volume_price_pattern c5df).risk_factors := by
  have hdead : ∀ r : List Bar, consecutiveRedRule r = noUpd := by
    intro r
    unfold consecutiveRedRule
    split
    next hcond =>
      exfalso
      obtain ⟨h4, hlt, _⟩ := hcond
      rw [show [bAt r 6, bAt r 7, bAt r 8, bAt r 9] =
          [bAt r 6, bAt r 7, bAt r 8] ++ [bAt r 9] from rfl,
        List.countP_append] at h4
      have h9 : List.countP (fun b => decide (b.op < b.cl)) [bAt r 9] = 0 := by
        simp [List.countP_cons, not_lt.mpr (le_of_lt hlt)]
      rw [h9] at h4
      have hle : List.countP (fun b => decide (b.op < b.cl))
          [bAt r 6, bAt r 7, bAt r 8] ≤ 3 :=
        List.countP_le_length _
      omega
    next => rfl
  refine ⟨hdead, ?_, ?_⟩ <;>
  · have hb4 : bAt c5df 4 = flatBar := rfl
    have hb5 : bAt c5df 5 = ⟨200, 212, 198, 210, 100⟩ := rfl
    have hb6 : bAt c5df 6 = ⟨200, 212, 198, 210, 100⟩ := rfl
    have hb7 : bAt c5df 7 = ⟨200, 212, 198, 210, 100⟩ := rfl
    have hb8 : bAt c5df 8 = ⟨200, 212, 198, 210, 100⟩ := rfl
    have hb9 : bAt c5df 9 = ⟨210, 212, 198, 200, 300⟩ := rfl
    have hhv : is_high_volume c5df = true := by
      norm_num [is_high_volume, hb6, hb7, hb8, hb9, npMax, max_def]
    have hday : high_volume_day c5df = 1 := by
      unfold high_volume_day
      rw [hhv, hb4, hb5, hb6, hb7, hb8]
      norm_num [flatBar, npMax, max_def]
    have hsup : support_price c5df = some 200 := by
      unfold support_price
      rw [hhv, hb9]
      norm_num [min_def]
    have hrp : resistance_price c5df = 212 := by
      norm_num [resistance_price, c5df, flatBar, npMax, max_def]
    have h01 : volumeSpikeRule c5df = ⟨["high_volume_day1_watch"], [], .add 0⟩ := by
      norm_num [volumeSpikeRule, hhv]
    have h02 : supportPositionRule c5df = noUpd := by
      unfold supportPositionRule
      rw [hsup, hb9]
      norm_num
    have h03 : threeSoldiersRule c5df = noUpd := by
      unfold threeSoldiersRule
      rw [hsup, hb7, hb8, hb9]
      norm_num
    have h04 : bottomFractalRule c5df = noUpd := by
      unfold bottomFractalRule
      rw [hsup, hb7, hb8, hb9]
      norm_num
    have h05 : topFractalRule c5df = noUpd := by
      unfold topFractalRule
      rw [hrp, hb7, hb8, hb9]
      norm_num
    have h06 : skyEarthShadowRule c5df = noUpd := by
      unfold skyEarthShadowRule
      rw [hb9]
      norm_num [min_def, max_def]
    have h07 : lowerShadowRule c5df = noUpd := by
      unfold lowerShadowRule
      rw [hhv, hb9]
      norm_num [min_def]
    have h08 : upperShadowRule c5df =
        ⟨["upper_shadow_at_resistance"], ["blocked_at_resistance"], .add (-3)⟩ := by
      unfold upperShadowRule
      rw [hrp, hb9]
      norm_num [max_def]
    have h09 : downtrendRule c5df = noUpd := by
      unfold downtrendRule
      rw [hb7, hb8, hb9]
      norm_num
    have h10 : volumeLadderRule c5df = noUpd := by
      unfold volumeLadderRule
      rw [hb6, hb7, hb8, hb9]
      norm_num
    have h11 : bigVolumeSmallBodyRule c5df = noUpd := by
      unfold bigVolumeSmallBodyRule
      rw [hhv, hb9]
      norm_num
    have h12 : consecutiveRedRule c5df = noUpd := hdead c5df
    have h13 : highVolumePositionRule c5df = ⟨["high_volume_day1_watch_only"], [], .reset⟩ := by
      unfold highVolumePositionRule
      rw [hhv, hday]
      norm_num
    have hrun : runRules codeRules c5df =
        ⟨0, ["high_volume_day1_watch", "upper_shadow_at_resistance",
             "high_volume_day1_watch_only"], ["blocked_at_resistance"]⟩ := by
      simp only [runRules, codeRules, List.foldl_cons, List.foldl_nil,
        h01, h02, h03, h04, h05, h06, h07, h08, h09, h10, h11, h12, h13]
      norm_num [applyUpd, noUpd]
    have hl : lastN 10 c5df = c5df := rfl
    have hlen : ¬ (c5df.length < 10) := by norm_num [c5df]
    have hfin : analyze_volume_price_pattern c5df =
        ⟨["high_volume_day1_watch", "upper_shadow_at_resistance",
          "high_volume_day1_watch_only"], .hold, .medium, 0,
         ["blocked_at_resistance"]⟩ := by
      simp only [analyze_volume_price_pattern, hl, hrun, if_neg hlen]
      rw [if_neg (by decide : ¬ ("broke_support" ∈ (["blocked_at_resistance"] : List String)))]
      norm_num [scoreToAction]
    simp [hfin]

/-- Claim C6: reversal-screen condition B holds exactly when the last 3
bars of the window all have strictly positive `total_net`, and flipping
the sign of any one of those three days' nets falsifies it. -/
theorem C6_cond_B_characterization (w₁ : List SBar) (a b c : SBar) :
    (cond_B (w₁ ++ [a, b, c]) = true ↔
      0 < total_net a ∧ 0 < total_net b ∧ 0 < total_net c) ∧
    (cond_B (w₁ ++ [a, b, c]) = true →
      cond_B (w₁ ++ [negBar a, b, c]) = false ∧
      cond_B (w₁ ++ [a, negBar b, c]) = false ∧
      cond_B (w₁ ++ [a, b, negBar c]) = false) := by
  have key : ∀ x y z : SBar, cond_B (w₁ ++ [x, y, z]) = true ↔
      0 < total_net x ∧ 0 < total_net y ∧ 0 < total_net z := by
    intro x y z
    unfold cond_B
    rw [List.map_append, lastN_append _ _ (by simp)]
    simp
  have hneg : ∀ x : SBar, total_net (negBar x) = -total_net x := by
    intro x
    unfold total_net negBar
    ring
  refine ⟨key a b c, fun h => ?_⟩
  obtain ⟨ha, hb, hc⟩ := (key a b c).mp h
  refine ⟨?_, ?_, ?_⟩ <;> rw [Bool.eq_false_iff]
  · intro hT
    have := ((key (negBar a) b c).mp hT).1
    rw [hneg a] at this
    linarith
  · intro hT
    have := ((key a (negBar b) c).mp hT).2.1
    rw [hneg b] at this
    linarith
  · intro hT
    have := ((key a b (negBar c)).mp hT).2.2
    rw [hneg c] at this
    linarith

/-- Claim C6 witness: on a concrete window of three positive-net bars,
condition B holds, and flipping the first bar's nets falsifies it. -/
theorem C6_cond_B_characterization_witness :
    cond_B ([] ++ [c6barA, c6barB, c6barC]) = true ∧
    cond_B ([] ++ [negBar c6barA, c6barB, c6barC]) = false := by
  have h := C6_cond_B_characterization [] c6barA c6barB c6barC
  have hB : cond_B ([] ++ [c6barA, c6barB, c6barC]) = true :=
    (h.1).mpr (by norm_num [total_net, c6barA, c6barB, c6barC])
  exact ⟨hB, (h.2 hB).1⟩

/-- Claim C7: reversal-screen condition C holds exactly when (i) the index
of the (first) minimum of the window's cumulative net lies within the last
10 bars (`len - 1 - m ≤ 10`), (ii) the final cumulative value exceeds the
minimum by strictly more than 500, and (iii) the last 5 cumulative values
are non-decreasing bar-to-bar, ties allowed. -/
theorem C7_cond_C_characterization (w : List SBar) (g l : ℚ)
    (hlen : 5 ≤ w.length)
    (hmem : g ∈ cumulative w) (hlb : ∀ x ∈ cumulative w, g ≤ x)
    (hlast : (cumulative w).getLast? = some l) :
    (cond_C w = true ↔
      ((cumulative w).length - 1 - (cumulative w).indexOf g ≤ 10 ∧
        500 < l - g ∧
        (lastN 5 (cumulative w)).Chain' (· ≤ ·))) := by
  have hg : npMin (cumulative w) = g := npMin_eq_of_isLeast hmem hlb
  have hlcs : RISING_CHECK_DAYS ≤ (cumulative w).length := by
    show 5 ≤ _
    unfold cumulative
    rw [cumsumFrom_length, List.length_map]
    exact hlen
  have hld : (cumulative w).getLastD 0 = l := by
    rw [List.getLastD_eq_getLast?, hlast]
    rfl
  simp only [cond_C, npArgmin, hg, hld, Bool.and_eq_true,
    decide_eq_true_eq, RECENT_BOTTOM_WINDOW, MIN_REBOUND_AMOUNT,
    RISING_CHECK_DAYS]
  rw [if_pos (show 5 ≤ (cumulative w).length from hlcs), nondec_iff_chain']
  tauto

/-- Claim C7 witness: on the concrete window `c7wdf` the cumulative net
bottoms at -600 on the first bar, rebounds by 750 and never falls back, so
condition C holds. -/
theorem C7_cond_C_characterization_witness : cond_C c7wdf = true := by
  have hcs : cumulative c7wdf = [-600, -300, -100, 50, 150] := by
    norm_num [cumulative, cumsumFrom, total_net, c7wdf]
  refine (C7_cond_C_characterization c7wdf (-600) 150 (by norm_num [c7wdf])
    ?_ ?_ ?_).mpr ?_
  · rw [hcs]
    norm_num
  · intro x hx
    rw [hcs] at hx
    fin_cases hx <;> norm_num
  · rw [hcs]
    rfl
  · have hidx : (cumulative c7wdf).indexOf (-600) = 0 := by
      rw [hcs]
      rfl
    have hlcs : (cumulative c7wdf).length = 5 := by rw [hcs]; rfl
    refine ⟨?_, by norm_num, ?_⟩
    · rw [hidx, hlcs]
      norm_num
    · rw [hcs]
      norm_num [lastN, List.chain'_cons]

/-- Claim C8: reversal-screen condition D holds exactly when the minimum
close of the window occurs among the last 10 closes by exact value
membership (ties anywhere in that sub-window qualify) and the last 2
closes are strictly increasing day-over-day. -/
theorem C8_cond_D_characterization (w : List SBar) (g : ℚ)
    (hlen : 2 ≤ w.length)
    (hmem : g ∈ w.map SBar.close) (hlb : ∀ x ∈ w.map SBar.close, g ≤ x) :
    (cond_D w = true ↔
      (g ∈ lastN 10 (w.map SBar.close) ∧
        ∃ a b, lastN 2 (w.map SBar.close) = [a, b] ∧ a < b)) := by
  have hg : npMin (w.map SBar.close) = g := npMin_eq_of_isLeast hmem hlb
  have hlen2 : (lastN 2 (w.map SBar.close)).length = 2 := by
    unfold lastN
    rw [List.length_drop, List.length_map]
    omega
  obtain ⟨a, b, hab⟩ := List.length_eq_two.mp hlen2
  simp only [cond_D, hg, hab, PRICE_RECENT_LOW_WINDOW, PRICE_RISING_DAYS,
    Bool.and_eq_true, decide_eq_true_eq]
  rw [show strictInc [a, b] = decide (a < b) from by simp [strictInc]]
  simp only [decide_eq_true_eq]
  constructor
  · rintro ⟨hm, -, hab'⟩
    exact ⟨hm, a, b, rfl, hab'⟩
  · rintro ⟨hm, a', b', heq, hab'⟩
    obtain ⟨rfl, rfl⟩ : a = a' ∧ b = b' := by simpa using heq
    exact ⟨hm, by norm_num, hab'⟩

/-- Claim C8 witness: on the concrete window `c8wdf` the minimum close 5
lies in the last-10 window and the last two closes 6 < 7 rise strictly, so
condition D holds. -/
theorem C8_cond_D_characterization_witness : cond_D c8wdf = true := by
  have hcl : c8wdf.map SBar.close = [5, 6, 7] := by norm_num [c8wdf]
  refine (C8_cond_D_characterization c8wdf 5 (by norm_num [c8wdf]) ?_ ?_).mpr ?_
  · rw [hcl]
    norm_num
  · intro x hx
    rw [hcl] at hx
    fin_cases hx <;> norm_num
  · rw [hcl]
    refine ⟨by norm_num [lastN], 6, 7, by norm_num [lastN], by norm_num⟩

/-- A guarded option is present exactly when the guard holds. -/
theorem isSome_guard_iff {α : Type} (c : Prop) [Decidable c] (x : α) :
    ((if c then some x else none).isSome = true) ↔ c := by
  split
  next h => simpa using h
  next h => simpa using h

/-- Claim C9: with at least `ma_long` (default 20) bars, `screen_stocks`
at the default parameters returns a pass record exactly when every
switched-on condition holds, a switched-off condition being vacuously
true; with every switch off, every such series passes; and with only the
price ceiling switched on at 100, a latest close of exactly 100.00 passes
(inclusive bound) while a latest close of 100.01 fails. -/
theorem C9_screen_stocks_pass_characterization :
    (∀ (df : List GBar) (fl : GFlags), 20 ≤ df.length →
      ((screen_stocks df fl defaultGParams).isSome ↔
        screenPassSpec df fl defaultGParams)) ∧
    (∀ df : List GBar, 20 ≤ df.length →
      (screen_stocks df allOffFlags defaultGParams).isSome) ∧
    (screen_stocks c9aDf priceOnlyFlags defaultGParams).isSome = true ∧
    screen_stocks c9bDf priceOnlyFlags defaultGParams = none := by
  have main : ∀ (df : List GBar) (fl : GFlags), 20 ≤ df.length →
      ((screen_stocks df fl defaultGParams).isSome ↔
        screenPassSpec df fl defaultGParams) := by
    intro df fl hlen
    have hnl : ¬ (df.length < defaultGParams.ma_long) := by
      simp only [defaultGParams]
      omega
    have hdiv : (if rollingMean 5 (df.map GBar.vol) ≠ 0 then
        (df.getLastD default).vol / rollingMean 5 (df.map GBar.vol) else 0) =
        (df.getLastD default).vol / rollingMean 5 (df.map GBar.vol) := by
      split
      · rfl
      · next h =>
        push_neg at h
        rw [h, div_zero]
    unfold screen_stocks
    rw [if_neg hnl]
    simp only [Bool.and_eq_true, flag_cond_iff, defaultGParams]
    rw [hdiv, isSome_guard_iff]
    unfold screenPassSpec
    simp only [defaultGParams, ge_iff_le, gt_iff_lt]
    tauto
  refine ⟨main, fun df hlen => (main df allOffFlags hlen).mpr ?_, ?_, ?_⟩
  · simp [screenPassSpec, allOffFlags]
  · refine (main c9aDf priceOnlyFlags (by norm_num [c9aDf])).mpr ?_
    simp only [screenPassSpec, priceOnlyFlags, defaultGParams]
    refine ⟨fun _ => ?_, by simp, by simp, by simp, by simp, by simp⟩
    norm_num [c9aDf, gFlatBar, List.getLastD]
  · have h := main c9bDf priceOnlyFlags (by norm_num [c9bDf])
    rw [← Option.not_isSome_iff_eq_none]
    rw [show ((screen_stocks c9bDf priceOnlyFlags defaultGParams).isSome = true) ↔
      screenPassSpec c9bDf priceOnlyFlags defaultGParams from h]
    simp only [screenPassSpec, priceOnlyFlags, defaultGParams]
    intro hspec
    have := hspec.1 trivial
    norm_num [c9bDf, gFlatBar, List.getLastD] at this

/-- Claim C9 witness: the pass characterization applied to the concrete
20-bar series `c9aDf` with every condition switch off. -/
theorem C9_screen_stocks_pass_witness :
    (screen_stocks c9aDf allOffFlags defaultGParams).isSome = true :=
  C9_screen_stocks_pass_characterization.2.1 c9aDf (by norm_num [c9aDf])

/-- Claim C10: for a row whose non-NaN `open` field is longer than 12
characters and contains a dot, `fix_price_columns` splits the regex
extraction of `\d+\.\d\x7b1,3\x7d` tokens into open/high/low/close when at
least 4 tokens are recovered, and marks `open` NaN (dropping the row
downstream) when fewer than 4 are. -/
theorem C10_fix_price_columns_repair (row : PriceRow) (s : String)
    (hrow : row.openS = some s)
    (hlong : 12 < (stripStr s).length)
    (hdot : '.' ∈ (stripStr s).data) :
    (∀ p0 p1 p2 p3 rest, findallPrices (stripStr s) = p0 :: p1 :: p2 :: p3 :: rest →
      fix_price_columns row =
        { row with openS := some p0, highS := some p1, lowS := some p2, closeS := some p3 }) ∧
    ((findallPrices (stripStr s)).length < 4 →
      fix_price_columns row = { row with openS := none }) := by
  constructor
  · intro p0 p1 p2 p3 rest hfind
    unfold fix_price_columns
    rw [hrow]
    simp only [if_pos (And.intro hlong hdot), hfind]
  · intro hlt
    unfold fix_price_columns
    rw [hrow]
    simp only [if_pos (And.intro hlong hdot)]
    rcases hfp : findallPrices (stripStr s) with - | ⟨p0, - | ⟨p1, - | ⟨p2, - | ⟨p3, rest⟩⟩⟩⟩ <;>
      simp only [hfp]
    all_goals first
      | rfl
      | (rw [hfp] at hlt; simp at hlt; omega)

/-- Claim C10 witness: the concrete corrupted field
`12.50012.60012.40012.550` splits into open 12.500, high 12.600,
low 12.400, close 12.550. -/
theorem C10_fix_price_columns_repair_witness :
    fix_price_columns c10row =
      ⟨some "12.500", some "12.600", some "12.400", some "12.550"⟩ := by
  have h := (C10_fix_price_columns_repair c10row "12.50012.60012.40012.550" rfl
    (by decide) (by decide)).1 "12.500" "12.600" "12.400" "12.550" [] (by decide)
  simpa [c10row] using h
